import Mathlib

/-!
Verification of the weightwatch Entry Store (src/services/dataService.ts) and
Backup Codec (src/components/DataBackup.tsx).

Modelling conventions, shared by all definitions below:

* Calendar dates cross every boundary as ISO `YYYY-MM-DD` strings, exactly as in
  the source.  `parseIsoDays` models the JavaScript `new Date(s)` parse of such a
  string: it yields the day count since the Unix epoch (the string form denotes
  UTC midnight) for calendar-valid strings and `none` for strings that parse to
  an Invalid Date (`NaN` time value), e.g. a month of 13 or a day of 30 in
  February.  `timeOf` is the millisecond time value used by the store for
  sorting and day arithmetic; theorems about the store carry validity
  hypotheses (`validDates`) restricting them to states whose date strings all
  parse, which is where the JavaScript sort comparator is well defined.
* JavaScript numbers are modelled as rationals.  Numbers reaching the codec
  come out of `JSON.parse`, which can only produce finite values, so `Rat`
  covers them; `Math.round`, `Math.floor` and `Math.max` translate to exact
  rational/integer operations.
* `Array.prototype.sort` with the comparator `(a, b) => ta - tb` is a stable
  sort by the key `timeOf`; it is modelled by `List.insertionSort` with the
  non-strict key order, which is stable and therefore produces the same list.
-/

namespace Weightwatch

/-! ### Dates: the JavaScript `new Date("YYYY-MM-DD")` parse -/

/-- Numeric value of a decimal digit character. -/
def digit (c : Char) : ℤ := (c.toNat : ℤ) - 48

/-- Gregorian leap-year rule. -/
def isLeap (y : ℤ) : Bool := (y % 4 == 0 && y % 100 != 0) || y % 400 == 0

/-- Number of days in month `m` of year `y`. -/
def daysInMonth (y m : ℤ) : ℤ :=
  if m == 2 then (if isLeap y then 29 else 28)
  else if m == 4 || m == 6 || m == 9 || m == 11 then 30
  else 31

/-- Days from the Unix epoch (1970-01-01) to the civil date `y-m-d`
(Howard Hinnant's `days_from_civil` algorithm, with floor division). -/
def daysFromCivil (y m d : ℤ) : ℤ :=
  let y' := if m ≤ 2 then y - 1 else y
  let era := y'.fdiv 400
  let yoe := y' - era * 400
  let mp := if m ≤ 2 then m + 9 else m - 3
  let doy := (153 * mp + 2).fdiv 5 + d - 1
  let doe := yoe * 365 + yoe.fdiv 4 - yoe.fdiv 100 + doy
  era * 146097 + doe - 719468

/-- The shape test `^\d{4}-\d{2}-\d{2}$` applied to a string
(the regular expression used by `validateWeightEntry` and `validateTargetData`). -/
def isoShape (s : String) : Bool :=
  match s.data with
  | [y1, y2, y3, y4, c1, m1, m2, c2, d1, d2] =>
    y1.isDigit && y2.isDigit && y3.isDigit && y4.isDigit && c1 == '-' &&
    m1.isDigit && m2.isDigit && c2 == '-' && d1.isDigit && d2.isDigit
  | _ => false

/-- JavaScript `new Date(s)` on a date-only string, as days since the epoch:
`some` for calendar-valid `YYYY-MM-DD` strings, `none` for Invalid Date. -/
def parseIsoDays (s : String) : Option ℤ :=
  match s.data with
  | [y1, y2, y3, y4, c1, m1, m2, c2, d1, d2] =>
    if y1.isDigit && y2.isDigit && y3.isDigit && y4.isDigit && c1 == '-' &&
       m1.isDigit && m2.isDigit && c2 == '-' && d1.isDigit && d2.isDigit then
      let y := 1000 * digit y1 + 100 * digit y2 + 10 * digit y3 + digit y4
      let m := 10 * digit m1 + digit m2
      let d := 10 * digit d1 + digit d2
      if 1 ≤ m && m ≤ 12 && 1 ≤ d && d ≤ daysInMonth y m then some (daysFromCivil y m d)
      else none
    else none
  | _ => none

/-- `new Date(s).getTime()` in milliseconds for a valid date string.  Invalid
dates are given the junk value `0`; theorems that depend on sort order or day
arithmetic carry `validDates` hypotheses so this junk value is never relied on. -/
def timeOf (s : String) : ℤ := ((parseIsoDays s).getD 0) * 86400000

/-! ### Data model (src/types): one dated weight observation -/

/-- A weight entry: `date`, `weekDay`, `weight` plus the three derived trend
fields, exactly the fields of the `WeightEntry` interface. -/
structure WeightEntry where
  date : String
  weekDay : String
  weight : ℚ
  changePercent : ℚ
  changeKg : ℚ
  dailyChange : ℚ
deriving DecidableEq

instance : Inhabited WeightEntry := ⟨⟨"", "", 0, 0, 0, 0⟩⟩

/-- Key order used by the store's sort comparator
`(a, b) => new Date(a.date).getTime() - new Date(b.date).getTime()`. -/
def dateLe (a b : WeightEntry) : Prop := timeOf a.date ≤ timeOf b.date

instance : DecidableRel dateLe := fun _ _ => Int.decLe _ _

instance : IsTotal WeightEntry dateLe := ⟨fun _ _ => Int.le_total _ _⟩

instance : IsTrans WeightEntry dateLe := ⟨fun _ _ _ => Int.le_trans⟩

/-- `[...entries].sort((a, b) => ...)`: a stable sort ascending by date. -/
def sortByDate (l : List WeightEntry) : List WeightEntry := l.insertionSort dateLe

/-- `Math.max(1, Math.floor((cur - prev) / 86400000))` applied to the two time
values, as used by `calculateDerivedFields`. -/
def daysDiff (prev cur : String) : ℤ := max 1 ((timeOf cur - timeOf prev).fdiv 86400000)

/-- `calculateDerivedFields` from dataService.ts: derived fields of `entry`
given its chronological predecessor (`none` for the first entry). -/
def calculateDerivedFields (entry : WeightEntry) (previousEntry : Option WeightEntry) :
    WeightEntry :=
  match previousEntry with
  | none => { entry with changePercent := 0, changeKg := 0, dailyChange := 0 }
  | some p =>
    let changeKg := entry.weight - p.weight
    let changePercent := changeKg / p.weight * 100
    let dailyChange := changeKg / ((daysDiff p.date entry.date : ℤ) : ℚ)
    { entry with changePercent := changePercent, changeKg := changeKg,
                 dailyChange := dailyChange }

/-- The `sorted.map((entry, index) => ...)` walk of `recalculateEntries`: each
entry is recomputed against the original entry at the previous index. -/
def recAux : Option WeightEntry → List WeightEntry → List WeightEntry
  | _, [] => []
  | prev, e :: rest => calculateDerivedFields e prev :: recAux (some e) rest

/-- `recalculateEntries` from dataService.ts: sort ascending by date, then
recompute every entry's derived fields from its predecessor. -/
def recalculateEntries (entries : List WeightEntry) : List WeightEntry :=
  recAux none (sortByDate entries)

/-- The two precondition errors the store throws
(`'An entry for this date already exists'` and `'Entry not found'`). -/
inductive StoreError where
  | duplicateEntry
  | entryNotFound
deriving DecidableEq

/-- A `Partial<WeightEntry>` patch as passed to `updateWeightEntry`. -/
structure EntryPatch where
  date : Option String := none
  weekDay : Option String := none
  weight : Option ℚ := none
  changePercent : Option ℚ := none
  changeKg : Option ℚ := none
  dailyChange : Option ℚ := none
deriving DecidableEq

/-- The spread `{...entries[index], ...updates}`. -/
def applyPatch (e : WeightEntry) (p : EntryPatch) : WeightEntry :=
  ⟨p.date.getD e.date, p.weekDay.getD e.weekDay, p.weight.getD e.weight,
   p.changePercent.getD e.changePercent, p.changeKg.getD e.changeKg,
   p.dailyChange.getD e.dailyChange⟩

/-- `addWeightEntry` from dataService.ts: reject a duplicate date, otherwise
append the raw entry (derived fields zeroed) and recalculate; `.ok` carries the
list that is persisted, `.error` means the store throws before any write. -/
def addWeightEntry (entries : List WeightEntry) (date weekDay : String) (weight : ℚ) :
    Except StoreError (List WeightEntry) :=
  if entries.any (fun e => e.date == date) then .error .duplicateEntry
  else .ok (recalculateEntries (entries ++ [⟨date, weekDay, weight, 0, 0, 0⟩]))

/-- `updateWeightEntry` from dataService.ts: locate the first entry with the
given date, overwrite it with the patch, recalculate. -/
def updateWeightEntry (entries : List WeightEntry) (date : String) (updates : EntryPatch) :
    Except StoreError (List WeightEntry) :=
  match entries.findIdx? (fun e => e.date == date) with
  | none => .error .entryNotFound
  | some i =>
    .ok (recalculateEntries (entries.set i (applyPatch (entries.getD i default) updates)))

/-- `deleteWeightEntry` from dataService.ts: drop every entry with the given
date; if nothing was dropped the date was absent and the store throws. -/
def deleteWeightEntry (entries : List WeightEntry) (date : String) :
    Except StoreError (List WeightEntry) :=
  let filtered := entries.filter (fun e => e.date != date)
  if filtered.length == entries.length then .error .entryNotFound
  else .ok (recalculateEntries filtered)

/-- Contents of the persisted entries slot after an insert attempt: on a throw
the `localStorage.setItem` call is never reached, so the old list survives. -/
def storeAfterAdd (entries : List WeightEntry) (date weekDay : String) (weight : ℚ) :
    List WeightEntry :=
  match addWeightEntry entries date weekDay weight with
  | .ok l => l
  | .error _ => entries

/-- Contents of the persisted entries slot after an update attempt. -/
def storeAfterUpdate (entries : List WeightEntry) (date : String) (updates : EntryPatch) :
    List WeightEntry :=
  match updateWeightEntry entries date updates with
  | .ok l => l
  | .error _ => entries

/-- Contents of the persisted entries slot after a delete attempt. -/
def storeAfterDelete (entries : List WeightEntry) (date : String) : List WeightEntry :=
  match deleteWeightEntry entries date with
  | .ok l => l
  | .error _ => entries

/-- All date strings of a store state parse as valid calendar dates. -/
def validDates (l : List WeightEntry) : Bool :=
  l.all (fun e => (parseIsoDays e.date).isSome)

/-- The weight check of `WeightEntryForm.validate`: the UI entry form flags a
parsed weight outside `[40, 200]` (the store itself never checks). -/
def formWeightError (w : ℚ) : Bool := decide (w < 40) || decide (w > 200)

/-! ### Sanitization (`sanitizeString` in DataBackup.tsx) -/

/-- Whitespace as removed by `String.prototype.trim`. -/
def isJsSpace (c : Char) : Bool :=
  c == ' ' || c == '\t' || c == '\n' || c == '\r' || c.toNat == 11 || c.toNat == 12 ||
  c.toNat == 160 || c.toNat == 65279 || c.toNat == 8232 || c.toNat == 8233

/-- The character class `[<>'"]` of the second replace. -/
def isDangerousChar (c : Char) : Bool :=
  c == '<' || c == '>' || c.toNat == 39 || c.toNat == 34

/-- One pass of `.replace(/<[^>]*>/g, '')`: a `<` that is followed by some `>`
starts a match reaching to the first such `>`; a `<` with no later `>` never
matches and is kept.  The fuel argument (instantiated with the list length,
which the match always exceeds) makes the recursion structural. -/
def stripTagsAux : Nat → List Char → List Char
  | 0, l => l
  | _ + 1, [] => []
  | fuel + 1, c :: rest =>
    if c == '<' && rest.contains '>' then
      stripTagsAux fuel ((rest.dropWhile (fun d => d != '>')).tail)
    else c :: stripTagsAux fuel rest

/-- `.replace(/<[^>]*>/g, '')`. -/
def stripTags (l : List Char) : List Char := stripTagsAux l.length l

/-- `String.prototype.trim`. -/
def trimChars (l : List Char) : List Char :=
  ((l.dropWhile isJsSpace).reverse.dropWhile isJsSpace).reverse

/-- `sanitizeString` from DataBackup.tsx, on an actual string: strip tag-like
spans, drop the dangerous characters, trim, cap at 1000 characters. -/
def sanitizeStr (s : String) : String :=
  ⟨(trimChars ((stripTags s.data).filter (fun c => !isDangerousChar c))).take 1000⟩

/-! ### JSON values (the result of `JSON.parse` on an untrusted document) -/

/-- A parsed JSON value.  Numbers are rationals: `JSON.parse` can only produce
finite numbers. -/
inductive Json where
  | null
  | bool (b : Bool)
  | num (q : ℚ)
  | str (s : String)
  | arr (elems : List Json)
  | obj (fields : List (String × Json))

/-- Property lookup on an object's field list. -/
def jsonLookup : List (String × Json) → String → Option Json
  | [], _ => none
  | (k, v) :: rest, key => if k == key then some v else jsonLookup rest key

/-- `x.k` property access: `none` models `undefined`. -/
def Json.getField (j : Json) (key : String) : Option Json :=
  match j with
  | .obj fs => jsonLookup fs key
  | _ => none

/-- `typeof x === 'string' ? x : undefined`. -/
def Json.asString : Json → Option String
  | .str s => some s
  | _ => none

/-- `typeof x === 'number' ? x : undefined`. -/
def Json.asNumber : Json → Option ℚ
  | .num q => some q
  | _ => none

/-- The guard `x && typeof x === 'object'`: true for objects and arrays,
false for `null` and primitives. -/
def Json.isObjLike : Json → Bool
  | .obj _ => true
  | .arr _ => true
  | _ => false

/-- String field access combined with the `typeof === 'string'` check. -/
def strField (j : Json) (k : String) : Option String := (j.getField k).bind Json.asString

/-- Number field access combined with the `typeof === 'number'` check. -/
def numField (j : Json) (k : String) : Option ℚ := (j.getField k).bind Json.asNumber

/-- `sanitizeString` on an arbitrary value: non-strings sanitize to `''`. -/
def sanitizeString (j : Json) : String :=
  match j with
  | .str s => sanitizeStr s
  | _ => ""

/-! ### Field-name and message constants of DataBackup.tsx -/

def keyVersion : String := "version"
def keyExportDate : String := "exportDate"
def keyEntries : String := "entries"
def keyTargetData : String := "targetData"
def keyAchievements : String := "achievements"
def keySettings : String := "settings"
def keyDate : String := "date"
def keyWeekDay : String := "weekDay"
def keyWeight : String := "weight"
def keyChangePercent : String := "changePercent"
def keyChangeKg : String := "changeKg"
def keyDailyChange : String := "dailyChange"
def keyStartDate : String := "startDate"
def keyEndDate : String := "endDate"
def keyStartWeight : String := "startWeight"
def keyEndWeight : String := "endWeight"
def keyTotalDuration : String := "totalDuration"
def keyTotalKg : String := "totalKg"
def keyHeight : String := "height"
def keyId : String := "id"
def keyName : String := "name"
def keyDescription : String := "description"
def keyIcon : String := "icon"
def keyCategory : String := "category"
def keyUnlocked : String := "unlocked"
def keyUnlockedAt : String := "unlockedAt"
def keyTheme : String := "theme"
def keyTimelineView : String := "timelineView"
def keyReminder : String := "reminder"
def themeLight : String := "light"
def themeDark : String := "dark"
def tvDaily : String := "daily"
def tvWeekly : String := "weekly"
def tvMonthly : String := "monthly"
def catMilestone : String := "milestone"
def catConsistency : String := "consistency"
def catProgress : String := "progress"
def catSpecial : String := "special"
def unknownLabel : String := "Unknown"
def ver100 : String := "1.0.0"
def msgNotObject : String := "Invalid backup file: not a valid JSON object"
def msgBadVersion : String := "Invalid or missing version number"
def msgNoExportDate : String := "Missing export date"
def msgEntriesNotArray : String := "Invalid backup file: entries must be an array"
def msgTooMany : String := "Too many entries in backup file (max 10000)"
def msgNoValidEntries : String := "No valid entries found in backup"
def msgBadTarget : String := "Invalid target data - will use defaults"
def invalidEntryAt : String := "Invalid entry at index "

/-- Decimal digit character of `n < 10`. -/
def digitChar (n : Nat) : Char := Char.ofNat (48 + n)

/-- Decimal digits of `n` (the fuel always suffices at `n + 1`). -/
def natDigits : Nat → Nat → List Char
  | 0, _ => []
  | fuel + 1, n => if n < 10 then [digitChar n] else natDigits fuel (n / 10) ++ [digitChar (n % 10)]

/-- Decimal rendering of a natural number, as template interpolation prints it. -/
def natToStr (n : Nat) : String := ⟨natDigits (n + 1) n⟩

/-- The warning pushed for a dropped entry at index `i`. -/
def invalidEntryMsg (i : Nat) : String := invalidEntryAt ++ natToStr i

/-! ### Validators of DataBackup.tsx -/

/-- `Math.round`, which rounds halves toward positive infinity. -/
def jsRound (q : ℚ) : ℤ := ⌊q + 1 / 2⌋

/-- `Math.round(q * 100) / 100`. -/
def round2 (q : ℚ) : ℚ := ((jsRound (q * 100) : ℤ) : ℚ) / 100

/-- `Math.round(q * 10) / 10`. -/
def round1 (q : ℚ) : ℚ := ((jsRound (q * 10) : ℤ) : ℚ) / 10

/-- `new Date('2000-01-01').getTime()`. -/
def minMs : ℤ := daysFromCivil 2000 1 1 * 86400000

/-- One nonempty all-digit run, `\d+`. -/
def allDigits (l : List Char) : Bool := !l.isEmpty && l.all Char.isDigit

/-- Split a character list on `.` (like `'a.b'.split('.')`, empty runs kept). -/
def splitOnDot : List Char → List (List Char)
  | [] => [[]]
  | c :: rest =>
    if c == '.' then [] :: splitOnDot rest
    else
      match splitOnDot rest with
      | [] => [[c]]
      | g :: gs => (c :: g) :: gs

/-- The test `/^\d+\.\d+\.\d+$/`. -/
def semverOk (s : String) : Bool :=
  match splitOnDot s.data with
  | [a, b, c] => allDigits a && allDigits b && allDigits c
  | _ => false

/-- The check `date < minDate || date > maxDate` is passed.  An Invalid Date
has a `NaN` time value and `NaN` comparisons are false, so a calendar-invalid
string passes the range check.  `maxMs` is the time value of `maxDate`
(now plus one year). -/
def dateRangePass (maxMs : ℤ) (s : String) : Bool :=
  match parseIsoDays s with
  | none => true
  | some t => !(decide (t * 86400000 < minMs) || decide (t * 86400000 > maxMs))

/-- An optional numeric field: rounded to 2 decimals if a number, else `0`. -/
def roundedNumOr0 (j : Json) (k : String) : ℚ :=
  match numField j k with
  | some q => round2 q
  | none => 0

/-- `validateWeightEntry` from DataBackup.tsx. -/
def validateWeightEntry (maxMs : ℤ) (j : Json) : Option WeightEntry :=
  if !j.isObjLike then none else
  match strField j keyDate with
  | none => none
  | some ds =>
    if !isoShape ds then none else
    match numField j keyWeight with
    | none => none
    | some w =>
      if w < 20 ∨ w > 500 then none else
      if !dateRangePass maxMs ds then none else
      some { date := ds
             weekDay := (let wd := sanitizeString ((j.getField keyWeekDay).getD .null)
                         if wd == "" then unknownLabel else wd)
             weight := round2 w
             changePercent := roundedNumOr0 j keyChangePercent
             changeKg := roundedNumOr0 j keyChangeKg
             dailyChange := roundedNumOr0 j keyDailyChange }

/-- The goal record (`TargetData` interface). -/
structure TargetData where
  startDate : String
  endDate : String
  startWeight : ℚ
  endWeight : ℚ
  totalDuration : ℚ
  totalKg : ℚ
  height : ℚ
deriving DecidableEq

/-- `validateTargetData` from DataBackup.tsx. -/
def validateTargetData (j : Json) : Option TargetData :=
  if !j.isObjLike then none else
  match strField j keyStartDate, strField j keyEndDate with
  | some sd, some ed =>
    if !isoShape sd || !isoShape ed then none else
    match numField j keyStartWeight, numField j keyEndWeight, numField j keyHeight with
    | some sw, some ew, some h =>
      if sw < 20 ∨ sw > 500 then none else
      if ew < 20 ∨ ew > 500 then none else
      if h < 50 ∨ h > 300 then none else
      some { startDate := sd
             endDate := ed
             startWeight := round2 sw
             endWeight := round2 ew
             totalDuration := (match numField j keyTotalDuration with
                               | some q => ((max 0 (jsRound q) : ℤ) : ℚ)
                               | none => 0)
             totalKg := (match numField j keyTotalKg with
                         | some q => round2 q
                         | none => 0)
             height := round1 h }
    | _, _, _ => none
  | _, _ => none

/-- An achievement badge record (`Achievement` interface of types/achievements). -/
structure Achievement where
  id : String
  name : String
  description : String
  icon : String
  category : String
  unlocked : Bool
  unlockedAt : Option String
deriving DecidableEq

def validCategories : List String := [catMilestone, catConsistency, catProgress, catSpecial]

/-- `validateAchievement` from DataBackup.tsx. -/
def validateAchievement (j : Json) : Option Achievement :=
  if !j.isObjLike then none else
  match strField j keyId, strField j keyName, strField j keyDescription, strField j keyIcon,
        j.getField keyCategory, j.getField keyUnlocked with
  | some i, some n, some de, some ic, some (.str c), some (.bool u) =>
    if i.data.length == 0 || i.data.length > 50 then none
    else if !(validCategories.contains c) then none
    else some ⟨sanitizeStr i, sanitizeStr n, sanitizeStr de, sanitizeStr ic, c, u,
               (strField j keyUnlockedAt).map sanitizeStr⟩
  | _, _, _, _, _, _ => none

/-- The retained settings keys of a backup. -/
structure BackupSettings where
  theme : Option String
  timelineView : Option String
  reminder : Option String
deriving DecidableEq

def validThemes : List String := [themeLight, themeDark]
def validTimelineViews : List String := [tvDaily, tvWeekly, tvMonthly]

/-- The settings-validation block of `validateBackupData`. -/
def parseSettings (j : Json) : BackupSettings :=
  match j.getField keySettings with
  | some s =>
    if !s.isObjLike then ⟨none, none, none⟩
    else
      { theme := (match s.getField keyTheme with
                  | some (.str t) => if validThemes.contains t then some t else none
                  | _ => none)
        timelineView := (match s.getField keyTimelineView with
                         | some (.str t) => if validTimelineViews.contains t then some t else none
                         | _ => none)
        reminder := (match s.getField keyReminder with
                     | some (.str r) => some (sanitizeStr r)
                     | _ => none) }
  | none => ⟨none, none, none⟩

/-- The validated contents of a backup document. -/
structure BackupData where
  version : String
  exportDate : String
  entries : List WeightEntry
  targetData : Option TargetData
  achievements : List Achievement
  settings : BackupSettings
deriving DecidableEq

/-- The `{ isValid, errors, data }` result of `validateBackupData`. -/
structure ValidationResult where
  isValid : Bool
  errors : List String
  data : Option BackupData
deriving DecidableEq

/-- The version check of `validateBackupData`: pushes a warning, not fatal. -/
def versionErrs (j : Json) : List String :=
  match strField j keyVersion with
  | some v => if semverOk v then [] else [msgBadVersion]
  | none => [msgBadVersion]

/-- The export-date check of `validateBackupData`: pushes a warning, not fatal. -/
def exportDateErrs (j : Json) : List String :=
  match strField j keyExportDate with
  | some _ => []
  | none => [msgNoExportDate]

/-- The per-entry validation loop: a warning naming the index of every element
that fails `validateWeightEntry`. -/
def entryErrors (maxMs : ℤ) : List Json → Nat → List String
  | [], _ => []
  | e :: rest, i =>
    match validateWeightEntry maxMs e with
    | some _ => entryErrors maxMs rest (i + 1)
    | none => invalidEntryMsg i :: entryErrors maxMs rest (i + 1)

/-- The target-validation block: an invalid target is dropped with a warning. -/
def targetParse (j : Json) : Option TargetData × List String :=
  match j.getField keyTargetData with
  | none => (none, [])
  | some .null => (none, [])
  | some t =>
    match validateTargetData t with
    | some td => (some td, [])
    | none => (none, [msgBadTarget])

/-- The achievement-validation block: invalid elements silently dropped. -/
def parseAchievements (j : Json) : List Achievement :=
  match j.getField keyAchievements with
  | some (.arr as) => as.filterMap validateAchievement
  | _ => []

/-- `validateBackupData` from DataBackup.tsx.  The three early returns (not an
object, entries not an array, more than 10000 entries) and the empty-result
check discard any earlier warnings, exactly as in the source; otherwise
`isValid` is `errors.length === 0 || validatedEntries.length > 0`. -/
def validateBackupData (maxMs : ℤ) (nowIso : String) (j : Json) : ValidationResult :=
  if !j.isObjLike then ⟨false, [msgNotObject], none⟩ else
  match j.getField keyEntries with
  | some (.arr es) =>
    if es.length > 10000 then ⟨false, [msgTooMany], none⟩ else
    let validatedEntries := es.filterMap (validateWeightEntry maxMs)
    if validatedEntries.length == 0 && es.length > 0 then ⟨false, [msgNoValidEntries], none⟩ else
    let tp := targetParse j
    let errs := versionErrs j ++ exportDateErrs j ++ entryErrors maxMs es 0 ++ tp.2
    ⟨errs.isEmpty || validatedEntries.length > 0, errs,
     some ⟨(strField j keyVersion).getD ver100,
           (strField j keyExportDate).getD nowIso,
           validatedEntries, tp.1, parseAchievements j, parseSettings j⟩⟩
  | _ => ⟨false, [msgEntriesNotArray], none⟩

/-! ### Serialization (`createBackup`) and restore (`restoreBackup`) -/

def entryToJson (e : WeightEntry) : Json :=
  .obj [(keyDate, .str e.date), (keyWeekDay, .str e.weekDay), (keyWeight, .num e.weight),
        (keyChangePercent, .num e.changePercent), (keyChangeKg, .num e.changeKg),
        (keyDailyChange, .num e.dailyChange)]

def targetToJson (t : TargetData) : Json :=
  .obj [(keyStartDate, .str t.startDate), (keyStartWeight, .num t.startWeight),
        (keyEndDate, .str t.endDate), (keyEndWeight, .num t.endWeight),
        (keyTotalDuration, .num t.totalDuration), (keyTotalKg, .num t.totalKg),
        (keyHeight, .num t.height)]

/-- `JSON.stringify` omits an `undefined` `unlockedAt`. -/
def achievementToJson (a : Achievement) : Json :=
  .obj ([(keyId, .str a.id), (keyName, .str a.name), (keyDescription, .str a.description),
         (keyIcon, .str a.icon), (keyCategory, .str a.category), (keyUnlocked, .bool a.unlocked)] ++
        (match a.unlockedAt with
         | some ua => [(keyUnlockedAt, Json.str ua)]
         | none => []))

/-- `JSON.stringify` omits settings keys that were `undefined` (absent or empty
in local storage, because of the `|| undefined` coercions in `createBackup`). -/
def settingsToJson (s : BackupSettings) : Json :=
  .obj ((match s.theme with | some t => [(keyTheme, Json.str t)] | none => []) ++
        (match s.timelineView with | some t => [(keyTimelineView, Json.str t)] | none => []) ++
        (match s.reminder with | some r => [(keyReminder, Json.str r)] | none => []))

/-- `createBackup` from DataBackup.tsx: the document built from live state and
written to the download file (as the value `JSON.parse` recovers from it). -/
def createBackup (exportDate : String) (entries : List WeightEntry)
    (targetData : Option TargetData) (achievements : List Achievement)
    (settings : BackupSettings) : Json :=
  .obj [(keyVersion, .str ver100), (keyExportDate, .str exportDate),
        (keyEntries, .arr (entries.map entryToJson)),
        (keyTargetData, match targetData with | some t => targetToJson t | none => .null),
        (keyAchievements, .arr (achievements.map achievementToJson)),
        (keySettings, settingsToJson settings)]

/-- The persisted application state touched by a restore: the session entry
collection and target (replaced through `onRestore`), the achievements slot,
and the three settings slots. -/
structure Store where
  entries : List WeightEntry
  targetData : Option TargetData
  achievements : List Achievement
  theme : Option String
  timelineView : Option String
  reminder : Option String
deriving DecidableEq

/-- `if (value) localStorage.setItem(...)`: only a truthy (nonempty) string
overwrites the slot. -/
def setIfTruthy (newVal oldVal : Option String) : Option String :=
  match newVal with
  | some s => if s == "" then oldVal else some s
  | none => oldVal

/-- `restoreBackup` from DataBackup.tsx, after the file has been read and
`JSON.parse` has produced `j`: validation failure throws before any state is
touched; success replaces entries and target and conditionally overwrites the
achievements and settings slots. -/
def restoreBackup (maxMs : ℤ) (nowIso : String) (j : Json) (st : Store) :
    Except (List String) Store :=
  let v := validateBackupData maxMs nowIso j
  match v.data, v.isValid with
  | some data, true =>
    .ok { entries := data.entries
          targetData := data.targetData
          achievements := if data.achievements.isEmpty then st.achievements else data.achievements
          theme := setIfTruthy data.settings.theme st.theme
          timelineView := setIfTruthy data.settings.timelineView st.timelineView
          reminder := setIfTruthy data.settings.reminder st.reminder }
  | _, _ => .error v.errors

/-- The state after a restore attempt: unchanged when the validation throws. -/
def runRestore (maxMs : ℤ) (nowIso : String) (j : Json) (st : Store) : Store × List String :=
  match restoreBackup maxMs nowIso j st with
  | .ok st' => (st', [])
  | .error errs => (st, errs)

/-! ### Specification predicates over store states -/

/-- Sort key of an entry: the time value of its date. -/
def entryKey (e : WeightEntry) : ℤ := timeOf e.date

/-- The collection is sorted ascending by date. -/
def sortedB : List WeightEntry → Bool
  | [] => true
  | [_] => true
  | a :: b :: rest => decide (timeOf a.date ≤ timeOf b.date) && sortedB (b :: rest)

/-- The derived fields of `e` equal the specified formulas over predecessor `p`:
`changeKg = weight - prevWeight`, `changePercent = changeKg / prevWeight * 100`,
`dailyChange = changeKg / max(1, floor(days between))`. -/
def derivedRelOkB (p e : WeightEntry) : Bool :=
  (e.changeKg == e.weight - p.weight) &&
  (e.changePercent == e.changeKg / p.weight * 100) &&
  (e.dailyChange == e.changeKg / ((daysDiff p.date e.date : ℤ) : ℚ))

/-- A first entry (no predecessor) has all three derived fields zero. -/
def derivedFirstOkB (e : WeightEntry) : Bool :=
  (e.changeKg == 0) && (e.changePercent == 0) && (e.dailyChange == 0)

/-- Every entry's derived fields are correct relative to its predecessor. -/
def derivedOkFromB : Option WeightEntry → List WeightEntry → Bool
  | _, [] => true
  | none, e :: rest => derivedFirstOkB e && derivedOkFromB (some e) rest
  | some p, e :: rest => derivedRelOkB p e && derivedOkFromB (some e) rest

/-- Derived-field correctness of a whole collection. -/
def derivedOkB (l : List WeightEntry) : Bool := derivedOkFromB none l

/-! ### Predicates for the round-trip claim (C4) -/

/-- A rational with at most two decimal places (fixed point of `round2`). -/
def twoDec (q : ℚ) : Prop := ∃ n : ℤ, q = (n : ℚ) / 100

/-- A rational with at most one decimal place (fixed point of `round1`). -/
def oneDec (q : ℚ) : Prop := ∃ n : ℤ, q = (n : ℚ) / 10

/-- An entry the import validator maps to itself: date of the accepted shape
and range, weight a two-decimal value in `[20, 500]`, two-decimal derived
fields, and a nonempty sanitization-invariant `weekDay`. -/
def entryReady (maxMs : ℤ) (e : WeightEntry) : Prop :=
  isoShape e.date = true ∧ dateRangePass maxMs e.date = true ∧
  20 ≤ e.weight ∧ e.weight ≤ 500 ∧ twoDec e.weight ∧
  twoDec e.changePercent ∧ twoDec e.changeKg ∧ twoDec e.dailyChange ∧
  sanitizeStr e.weekDay = e.weekDay ∧ e.weekDay ≠ ""

/-- A target record the import validator maps to itself. -/
def targetReady (t : TargetData) : Prop :=
  isoShape t.startDate = true ∧ isoShape t.endDate = true ∧
  20 ≤ t.startWeight ∧ t.startWeight ≤ 500 ∧ twoDec t.startWeight ∧
  20 ≤ t.endWeight ∧ t.endWeight ≤ 500 ∧ twoDec t.endWeight ∧
  50 ≤ t.height ∧ t.height ≤ 300 ∧ oneDec t.height ∧
  (∃ n : ℕ, t.totalDuration = (n : ℚ)) ∧ twoDec t.totalKg

/-- Settings holding only recognized values, as `createBackup` can emit them
(absent or nonempty, and import-invariant). -/
def settingsReady (s : BackupSettings) : Prop :=
  (∀ t, s.theme = some t → validThemes.contains t = true) ∧
  (∀ t, s.timelineView = some t → validTimelineViews.contains t = true) ∧
  (∀ r, s.reminder = some r → sanitizeStr r = r ∧ r ≠ "")

/-! ### The drop condition of per-entry import validation (C7) -/

/-- The amended drop condition, stated from the claim side: an element is
dropped iff it is not an object carrying a `date` string of the accepted shape
whose parse — when it is a valid calendar date — lies in
`[2000-01-01, maxDate]`, and a numeric `weight` in `[20, 500]`.  A
regex-shaped but calendar-invalid date parses to Invalid Date and is retained. -/
def dropSpec (maxMs : ℤ) (j : Json) : Bool :=
  !(j.isObjLike &&
    (match strField j keyDate with
     | some ds => isoShape ds &&
         (match parseIsoDays ds with
          | some t => !(decide (t * 86400000 < minMs) || decide (t * 86400000 > maxMs))
          | none => true)
     | none => false) &&
    (match numField j keyWeight with
     | some w => decide (20 ≤ w) && decide (w ≤ 500)
     | none => false))

/-- The warnings the amended claim predicts: one message per dropped index. -/
def dropWarnings (maxMs : ℤ) (es : List Json) : List String :=
  (es.enum.filter (fun p => dropSpec maxMs p.2)).map (fun p => invalidEntryMsg p.1)

/-! ### Concrete data for witnesses and counterexamples -/

instance {ε α : Type} [DecidableEq ε] [DecidableEq α] : DecidableEq (Except ε α)
  | .ok a, .ok b =>
    if h : a = b then .isTrue (by rw [h]) else .isFalse (fun hh => h (Except.ok.inj hh))
  | .error a, .error b =>
    if h : a = b then .isTrue (by rw [h]) else .isFalse (fun hh => h (Except.error.inj hh))
  | .ok _, .error _ => .isFalse (fun hh => Except.noConfusion hh)
  | .error _, .ok _ => .isFalse (fun hh => Except.noConfusion hh)

/-- A concrete store used to witness the store-operation theorems. -/
def w1entries : List WeightEntry := [⟨"2025-01-01", "Wednesday", 100, 0, 0, 0⟩]

def w1res₁ : List WeightEntry :=
  [⟨"2025-01-01", "Wednesday", 100, 0, 0, 0⟩, ⟨"2025-01-08", "Wednesday", 98, -2, -2, -2/7⟩]

def w1res₂ : List WeightEntry := [⟨"2025-01-01", "Wednesday", 99, 0, 0, 0⟩]

def w1patch : EntryPatch := ⟨none, none, some 99, none, none, none⟩

/-- `maxDate` for the concrete import scenarios: one year after 2026-10-12. -/
def maxD0 : ℤ := daysFromCivil 2027 10 12 * 86400000

def nowIso0 : String := "2026-10-12T10:00:00.000Z"

/-- A live store seeded with 3 known entries (the C3 scenario). -/
def store3 : Store :=
  ⟨[⟨"2025-01-01", "Wednesday", 100, 0, 0, 0⟩,
    ⟨"2025-01-02", "Thursday", 99, 0, 0, 0⟩,
    ⟨"2025-01-03", "Friday", 98, 0, 0, 0⟩], none, [], none, none, none⟩

/-- A structurally fine document whose entry array has 10001 elements. -/
def bigDoc : Json :=
  .obj [(keyVersion, .str ver100), (keyExportDate, .str nowIso0),
        (keyEntries, .arr (List.replicate 10001 Json.null))]

/-- Entries whose derived fields carry full precision (dailyChange `-2/7`),
exactly as the store computes them after an insert: the import validator
rounds these to two decimals, breaking the round trip. -/
def c4entries : List WeightEntry :=
  [⟨"2025-01-01", "Wednesday", 100, 0, 0, 0⟩,
   ⟨"2025-01-08", "Wednesday", 98, -2, -2, -2/7⟩]

def c4doc : Json := createBackup nowIso0 c4entries none [] ⟨none, none, none⟩

/-- A clean entry that round-trips unchanged. -/
def c4okEntry : WeightEntry := ⟨"2025-01-01", "Monday", 100, 0, 0, 0⟩

/-- A clean target that round-trips unchanged. -/
def c4okTarget : TargetData := ⟨"2025-01-01", "2025-06-30", 100, 80, 180, 20, 170⟩

def c4okSettings : BackupSettings := ⟨some themeLight, some tvWeekly, some "evening"⟩

/-- A document with a numeric (non-string) `version` but one valid entry. -/
def c5doc : Json :=
  .obj [(keyVersion, .num 1), (keyExportDate, .str nowIso0),
        (keyEntries, .arr [entryToJson c4okEntry])]

/-- A stored sequence whose first entry carries stale derived fields (like the
initial mock seed, whose hand-rounded values differ from recomputation). -/
def c6entries : List WeightEntry :=
  [⟨"2025-01-01", "Wednesday", 100, 5, 5, 5⟩, ⟨"2025-01-02", "Thursday", 99, 0, 0, 0⟩]

def c6patch : EntryPatch := ⟨none, none, some 98, none, none, none⟩

/-- The result of updating the weight at sorted position 1 of `c6entries`:
position 0 is rewritten to its recomputed form, losing the stale values. -/
def c6res : List WeightEntry :=
  [⟨"2025-01-01", "Wednesday", 100, 0, 0, 0⟩, ⟨"2025-01-02", "Thursday", 98, -2, -2, -2⟩]

/-- A derived-consistent two-entry store (the amended C6 hypothesis holds). -/
def w6entries : List WeightEntry :=
  [⟨"2025-01-01", "Wednesday", 100, 0, 0, 0⟩, ⟨"2025-01-02", "Thursday", 99, -1, -1, -1⟩]

def w6res : List WeightEntry :=
  [⟨"2025-01-01", "Wednesday", 100, 0, 0, 0⟩, ⟨"2025-01-02", "Thursday", 98, -2, -2, -2⟩]

/-- An import entry object with the given date and weight 100. -/
def c7entry (d : String) : Json := .obj [(keyDate, .str d), (keyWeight, .num 100)]

/-- A regex-shaped but calendar-invalid date: `new Date` gives Invalid Date. -/
def c7badDate : Json := c7entry "2025-02-30"

/-- The 5-entry document of the claim: index 2 has weight 9999. -/
def c7doc : Json :=
  .obj [(keyVersion, .str ver100), (keyExportDate, .str nowIso0),
        (keyEntries, .arr [c7entry "2025-01-01", c7entry "2025-01-02",
                           .obj [(keyDate, .str "2025-01-03"), (keyWeight, .num 9999)],
                           c7entry "2025-01-04", c7entry "2025-01-05"])]

/-- A patch that sets the date to another existing entry's date. -/
def c8patch : EntryPatch := ⟨some "2025-01-02", none, none, none, none, none⟩

/-! ### Lemmas: recalculation produces sorted, derived-consistent output -/

attribute [local semireducible] Rat.mul Rat.add Rat.sub Rat.inv

theorem calc_date (e : WeightEntry) (p : Option WeightEntry) :
    (calculateDerivedFields e p).date = e.date := by
  cases p <;> rfl

theorem calc_weekDay (e : WeightEntry) (p : Option WeightEntry) :
    (calculateDerivedFields e p).weekDay = e.weekDay := by
  cases p <;> rfl

theorem calc_weight (e : WeightEntry) (p : Option WeightEntry) :
    (calculateDerivedFields e p).weight = e.weight := by
  cases p <;> rfl

theorem recAux_map_key : ∀ (p : Option WeightEntry) (l : List WeightEntry),
    (recAux p l).map entryKey = l.map entryKey
  | _, [] => rfl
  | p, e :: t => by
    simp only [recAux, List.map_cons, recAux_map_key (some e) t, List.cons.injEq, and_true]
    simp [entryKey, calc_date]

theorem sortedB_of_chain' : ∀ (l : List WeightEntry), List.Chain' dateLe l → sortedB l = true
  | [], _ => rfl
  | [_], _ => rfl
  | a :: b :: rest, h => by
    rw [List.chain'_cons] at h
    unfold sortedB
    rw [Bool.and_eq_true, decide_eq_true_eq]
    exact ⟨h.1, sortedB_of_chain' (b :: rest) h.2⟩

theorem chain'_dateLe_iff_key (l : List WeightEntry) :
    List.Chain' dateLe l ↔ List.Chain' (· ≤ ·) (l.map entryKey) :=
  (List.chain'_map entryKey).symm

theorem sorted_recalc (l : List WeightEntry) : sortedB (recalculateEntries l) = true := by
  apply sortedB_of_chain'
  have h1 : List.Sorted dateLe (sortByDate l) := List.sorted_insertionSort dateLe l
  have h2 : List.Chain' (· ≤ ·) ((sortByDate l).map entryKey) :=
    (chain'_dateLe_iff_key _).1 h1.chain'
  rw [recalculateEntries, chain'_dateLe_iff_key, recAux_map_key]
  exact h2

theorem derivedOkFromB_recAux : ∀ (l : List WeightEntry) (p q : WeightEntry),
    p.date = q.date → p.weight = q.weight →
    derivedOkFromB (some p) (recAux (some q) l) = true
  | [], _, _, _, _ => rfl
  | e :: t, p, q, hd, hw => by
    unfold recAux derivedOkFromB
    rw [Bool.and_eq_true]
    refine ⟨?_, derivedOkFromB_recAux t _ e (calc_date e _) (calc_weight e _)⟩
    simp [derivedRelOkB, calculateDerivedFields, hd, hw]

theorem derivedOk_recalc (l : List WeightEntry) : derivedOkB (recalculateEntries l) = true := by
  unfold derivedOkB recalculateEntries
  cases h : sortByDate l with
  | nil => rfl
  | cons e t =>
    unfold recAux derivedOkFromB
    rw [Bool.and_eq_true]
    refine ⟨by simp [derivedFirstOkB, calculateDerivedFields], ?_⟩
    exact derivedOkFromB_recAux t _ e (calc_date e _) (calc_weight e _)

/-! ### Claim theorems -/

/-- Claim C1: after every successful Entry Store mutation (insert, update,
delete) the returned collection is sorted ascending by date, its
chronologically first entry has `changeKg`, `changePercent` and `dailyChange`
all zero, and every entry at a later position has `changeKg = w[i] - w[i-1]`,
`changePercent = changeKg / w[i-1] * 100` and
`dailyChange = changeKg / max(1, floor(days between the two dates))`.  The
validity hypotheses (`hv`, `hd₁`, `hp`) scope the statement to stores whose
date strings denote calendar dates, the domain on which the embedding of the
JavaScript sort comparator and day arithmetic is faithful; the conclusion does
not otherwise depend on them. -/
theorem c1_mutations_sorted_and_derived
    (entries res₁ res₂ res₃ : List WeightEntry) (d₁ wd d₂ d₃ : String) (w : ℚ)
    (patch : EntryPatch)
    (hv : validDates entries = true)
    (hd₁ : (parseIsoDays d₁).isSome = true)
    (hp : patch.date.all (fun s => (parseIsoDays s).isSome) = true) :
    (addWeightEntry entries d₁ wd w = .ok res₁ →
      sortedB res₁ = true ∧ derivedOkB res₁ = true) ∧
    (updateWeightEntry entries d₂ patch = .ok res₂ →
      sortedB res₂ = true ∧ derivedOkB res₂ = true) ∧
    (deleteWeightEntry entries d₃ = .ok res₃ →
      sortedB res₃ = true ∧ derivedOkB res₃ = true) := by
  refine ⟨fun h => ?_, fun h => ?_, fun h => ?_⟩
  · unfold addWeightEntry at h
    by_cases hc : entries.any (fun e => e.date == d₁) = true
    · simp [hc] at h
    · rw [Bool.not_eq_true] at hc
      simp only [hc, Bool.false_eq_true, if_false, Except.ok.injEq] at h
      exact h ▸ ⟨sorted_recalc _, derivedOk_recalc _⟩
  · unfold updateWeightEntry at h
    cases hidx : entries.findIdx? (fun e => e.date == d₂) with
    | none => simp [hidx] at h
    | some i =>
      simp only [hidx, Except.ok.injEq] at h
      exact h ▸ ⟨sorted_recalc _, derivedOk_recalc _⟩
  · unfold deleteWeightEntry at h
    by_cases hc : ((entries.filter (fun e => e.date != d₃)).length == entries.length) = true
    · simp [hc] at h
    · rw [Bool.not_eq_true] at hc
      simp only [hc, Bool.false_eq_true, if_false, Except.ok.injEq] at h
      exact h ▸ ⟨sorted_recalc _, derivedOk_recalc _⟩

/-- Witness for C1 at a concrete store: all three mutations succeed with the
computed results, which are sorted and derived-consistent. -/
theorem c1_witness :
    (sortedB w1res₁ = true ∧ derivedOkB w1res₁ = true) ∧
    (sortedB w1res₂ = true ∧ derivedOkB w1res₂ = true) ∧
    (sortedB ([] : List WeightEntry) = true ∧ derivedOkB [] = true) := by
  have h := c1_mutations_sorted_and_derived w1entries w1res₁ w1res₂ []
    "2025-01-08" "Wednesday" "2025-01-01" "2025-01-01" 98 w1patch
    (by decide) (by decide) (by decide)
  exact ⟨h.1 (by decide), h.2.1 (by decide), h.2.2 (by decide)⟩

/-- Claim C2: inserting an already-present date fails with the duplicate-entry
error, updating or deleting an absent date fails with the not-found error, and
in every such failure the persisted list is byte-for-byte the old one (the
throw happens before the `localStorage.setItem` write). -/
theorem c2_precondition_failures_leave_store_unchanged
    (entries : List WeightEntry) (dPresent dAbsent wd : String) (w : ℚ) (patch : EntryPatch)
    (hdup : entries.any (fun e => e.date == dPresent) = true)
    (habs : entries.any (fun e => e.date == dAbsent) = false) :
    addWeightEntry entries dPresent wd w = .error .duplicateEntry ∧
    storeAfterAdd entries dPresent wd w = entries ∧
    updateWeightEntry entries dAbsent patch = .error .entryNotFound ∧
    storeAfterUpdate entries dAbsent patch = entries ∧
    deleteWeightEntry entries dAbsent = .error .entryNotFound ∧
    storeAfterDelete entries dAbsent = entries := by
  have hadd : addWeightEntry entries dPresent wd w = .error .duplicateEntry := by
    simp [addWeightEntry, hdup]
  have hupd : updateWeightEntry entries dAbsent patch = .error .entryNotFound := by
    have hnone : entries.findIdx? (fun e => e.date == dAbsent) = none :=
      List.findIdx?_eq_none_iff.mpr (fun x hx => by
        have := (List.any_eq_false.mp habs) x hx
        simpa using this)
    simp [updateWeightEntry, hnone]
  have hdel : deleteWeightEntry entries dAbsent = .error .entryNotFound := by
    have hfil : entries.filter (fun e => e.date != dAbsent) = entries :=
      List.filter_eq_self.mpr (fun a ha => by
        have := (List.any_eq_false.mp habs) a ha
        simpa using this)
    simp [deleteWeightEntry, hfil]
  refine ⟨hadd, ?_, hupd, ?_, hdel, ?_⟩
  · rw [storeAfterAdd, hadd]
  · rw [storeAfterUpdate, hupd]
  · rw [storeAfterDelete, hdel]

/-- Witness for C2: on the concrete one-entry store, re-inserting
`2025-01-01` fails with the duplicate error and updating/deleting the absent
`2025-03-03` fails with the not-found error, leaving the store unchanged. -/
theorem c2_witness :
    addWeightEntry w1entries "2025-01-01" "Wednesday" 50 = .error .duplicateEntry ∧
    storeAfterAdd w1entries "2025-01-01" "Wednesday" 50 = w1entries ∧
    updateWeightEntry w1entries "2025-03-03" w1patch = .error .entryNotFound ∧
    storeAfterUpdate w1entries "2025-03-03" w1patch = w1entries ∧
    deleteWeightEntry w1entries "2025-03-03" = .error .entryNotFound ∧
    storeAfterDelete w1entries "2025-03-03" = w1entries :=
  c2_precondition_failures_leave_store_unchanged w1entries "2025-01-01" "2025-03-03"
    "Wednesday" 50 w1patch (by decide) (by decide)

/-! ### Sanitization properties (C9) -/

theorem mem_of_mem_trimChars {c : Char} {l : List Char} (h : c ∈ trimChars l) : c ∈ l := by
  unfold trimChars at h
  rw [List.mem_reverse] at h
  have h2 := (List.dropWhile_sublist _).subset h
  rw [List.mem_reverse] at h2
  exact (List.dropWhile_sublist _).subset h2

/-- Claim C9: for every input string, sanitization leaves no `<`, `>`,
apostrophe or double-quote character and caps the length at 1000; in
particular the script-tag `weekDay` example sanitizes to `alert(1)Monday`,
which contains none of those characters. -/
theorem c9_sanitization_strips_dangerous_chars (s : String) :
    (sanitizeStr s).data.all (fun c => !isDangerousChar c) = true ∧
    (sanitizeStr s).data.length ≤ 1000 ∧
    sanitizeStr "<script>alert(1)</script>Monday" = "alert(1)Monday" := by
  refine ⟨?_, ?_, by decide⟩
  · rw [List.all_eq_true]
    intro c hc
    have h1 : c ∈ trimChars ((stripTags s.data).filter (fun c => !isDangerousChar c)) :=
      (List.take_sublist _ _).subset hc
    have h2 := mem_of_mem_trimChars h1
    exact (List.mem_filter.mp h2).2
  · show (List.take 1000 _).length ≤ 1000
    rw [List.length_take]
    exact min_le_left _ _

/-! ### The store checks nothing about weights (C10) -/

theorem recAux_mem_raw : ∀ (p : Option WeightEntry) (l : List WeightEntry) (e : WeightEntry),
    e ∈ l →
    ∃ e' ∈ recAux p l, e'.date = e.date ∧ e'.weekDay = e.weekDay ∧ e'.weight = e.weight
  | p, [], e, h => absurd h (List.not_mem_nil e)
  | p, x :: t, e, h => by
    rcases List.mem_cons.mp h with he | ht
    · subst he
      exact ⟨calculateDerivedFields e p, List.mem_cons_self _ _,
             calc_date e p, calc_weekDay e p, calc_weight e p⟩
    · obtain ⟨e', hm, hp⟩ := recAux_mem_raw (some x) t e ht
      exact ⟨e', List.mem_cons_of_mem _ hm, hp⟩

/-- Claim C10: the Entry Store itself enforces no range or finiteness check on
weight: for any fresh date and any rational weight (zero, negative, outside
both `[40, 200]` and `[20, 500]`), `addWeightEntry` succeeds and the persisted
collection contains an entry with exactly that date, weekDay and weight; the
`[40, 200]` bound exists only in the UI form check `formWeightError`. -/
theorem c10_store_accepts_any_weight
    (entries : List WeightEntry) (d wd : String) (w : ℚ)
    (habs : entries.any (fun e => e.date == d) = false) :
    (∃ res, addWeightEntry entries d wd w = .ok res ∧
       ∃ e' ∈ res, e'.date = d ∧ e'.weekDay = wd ∧ e'.weight = w) ∧
    (formWeightError w = true ↔ (w < 40 ∨ w > 200)) := by
  constructor
  · refine ⟨recalculateEntries (entries ++ [⟨d, wd, w, 0, 0, 0⟩]), by simp [addWeightEntry, habs], ?_⟩
    have hmem : (⟨d, wd, w, 0, 0, 0⟩ : WeightEntry) ∈ entries ++ [⟨d, wd, w, 0, 0, 0⟩] := by simp
    have hmem2 : (⟨d, wd, w, 0, 0, 0⟩ : WeightEntry) ∈ sortByDate (entries ++ [⟨d, wd, w, 0, 0, 0⟩]) :=
      ((List.perm_insertionSort dateLe _).mem_iff).mpr hmem
    exact recAux_mem_raw none _ _ hmem2
  · simp [formWeightError]

/-- Witness for C10: inserting weight `-5` (negative, outside every documented
range) at a fresh date succeeds and is persisted verbatim, while the UI form
would flag it. -/
theorem c10_witness :
    (∃ res, addWeightEntry w1entries "2025-03-03" "Saturday" (-5) = .ok res ∧
       ∃ e' ∈ res, e'.date = "2025-03-03" ∧ e'.weekDay = "Saturday" ∧ e'.weight = -5) ∧
    (formWeightError (-5) = true ↔ ((-5 : ℚ) < 40 ∨ (-5 : ℚ) > 200)) :=
  c10_store_accepts_any_weight w1entries "2025-03-03" "Saturday" (-5) (by decide)

/-! ### Date uniqueness is broken by update (C8) -/

/-- Claim C8 (code bug): updating `2025-01-01` with a patch whose `date` field
is the other entry's date `2025-01-02` succeeds and persists a collection in
which both entries carry the date `2025-01-02` — `updateWeightEntry` never
re-checks date uniqueness, unlike `addWeightEntry`. -/
theorem c8_update_date_collision_creates_duplicate :
    (updateWeightEntry w6entries "2025-01-01" c8patch).map (fun l => l.map (fun e => e.date)) =
      .ok ["2025-01-02", "2025-01-02"] := by decide

/-! ### Forward-only recompute (C6) -/

theorem recAux_take : ∀ (l : List WeightEntry) (p : Option WeightEntry) (m : Nat),
    (recAux p l).take m = recAux p (l.take m)
  | [], _, _ => by simp [recAux]
  | e :: t, p, 0 => by simp [recAux]
  | e :: t, p, m + 1 => by
    simp only [recAux, List.take_succ_cons]
    rw [recAux_take t (some e) m]

theorem set_take {α : Type} : ∀ (l : List α) (k : Nat) (x : α), (l.set k x).take k = l.take k
  | [], _, _ => rfl
  | a :: t, 0, x => by simp
  | a :: t, k + 1, x => by
    rw [List.set_cons_succ, List.take_succ_cons, List.take_succ_cons, set_take t k x]

theorem map_key_set_patch : ∀ (l : List WeightEntry) (k : Nat) (pt : EntryPatch),
    pt.date = none →
    (l.set k (applyPatch (l.getD k default) pt)).map entryKey = l.map entryKey
  | [], _, _, _ => rfl
  | a :: t, 0, pt, h => by
    simp only [List.getD_cons_zero, List.set_cons_zero, List.map_cons, List.cons.injEq, and_true]
    simp [applyPatch, entryKey, h]
  | a :: t, k + 1, pt, h => by
    simp only [List.getD_cons_succ, List.set_cons_succ, List.map_cons, List.cons.injEq, true_and]
    exact map_key_set_patch t k pt h

theorem pairwise_key_of_consistent {entries : List WeightEntry}
    (hcons : recalculateEntries entries = entries) :
    List.Pairwise (· ≤ ·) (entries.map entryKey) := by
  have h1 : entries.map entryKey = (sortByDate entries).map entryKey := by
    conv_lhs => rw [← hcons]
    exact recAux_map_key none (sortByDate entries)
  rw [h1]
  exact List.pairwise_map.mpr (List.sorted_insertionSort dateLe entries)

theorem sorted_dateLe_of_key {l : List WeightEntry}
    (h : List.Pairwise (· ≤ ·) (l.map entryKey)) : List.Sorted dateLe l := by
  have h2 := (@List.pairwise_map WeightEntry ℤ entryKey (· ≤ ·) l).mp h
  exact h2

/-- Claim C6 counterexample: on the stale-prefix store `c6entries` (its first
entry carries derived values `5`, as the initial mock seed carries hand-rounded
values), updating the weight at sorted position 1 rewrites position 0 as well:
the returned prefix differs from the pre-update prefix, refuting the claim for
arbitrary stored sequences. -/
theorem c6_counterexample_stale_prefix_changes :
    updateWeightEntry c6entries "2025-01-02" c6patch = .ok c6res ∧
    c6res.take 1 ≠ c6entries.take 1 := by decide

/-- Claim C6 as amended: if the stored sequence is derived-consistent (it is a
fixed point of `recalculateEntries`, which holds for every sequence the store
itself produced) and `updateWeightEntry` patches the entry found at sorted
position `k` without touching its date, then the returned collection agrees
with the old one strictly below `k` and equals the full-sequence
recomputation of the patched sequence. -/
theorem c6_amended_forward_recompute
    (entries res : List WeightEntry) (d : String) (patch : EntryPatch) (k : Nat)
    (hcons : recalculateEntries entries = entries)
    (hpd : patch.date = none)
    (hidx : entries.findIdx? (fun e => e.date == d) = some k)
    (hres : updateWeightEntry entries d patch = .ok res) :
    res.take k = entries.take k ∧
    res = recalculateEntries (entries.set k (applyPatch (entries.getD k default) patch)) := by
  have hres' : res =
      recalculateEntries (entries.set k (applyPatch (entries.getD k default) patch)) := by
    unfold updateWeightEntry at hres
    rw [hidx] at hres
    exact (Except.ok.inj hres).symm
  refine ⟨?_, hres'⟩
  have hpw := pairwise_key_of_consistent hcons
  have hsorted : List.Sorted dateLe entries := sorted_dateLe_of_key hpw
  have hself : sortByDate entries = entries := hsorted.insertionSort_eq
  have hrecAux : recAux none entries = entries := by
    have h2 := hcons
    unfold recalculateEntries at h2
    rw [hself] at h2
    exact h2
  have hkeys := map_key_set_patch entries k patch hpd
  have hsorted' :
      List.Sorted dateLe (entries.set k (applyPatch (entries.getD k default) patch)) :=
    sorted_dateLe_of_key (by rw [hkeys]; exact hpw)
  have hself' : sortByDate (entries.set k (applyPatch (entries.getD k default) patch)) =
      entries.set k (applyPatch (entries.getD k default) patch) := hsorted'.insertionSort_eq
  rw [hres']
  unfold recalculateEntries
  rw [hself', recAux_take, set_take, ← recAux_take, hrecAux]

/-- Witness for the amended C6: on the consistent store `w6entries`, updating
the weight at position 1 keeps position 0 unchanged and matches the full
recomputation. -/
theorem c6_witness :
    w6res.take 1 = w6entries.take 1 ∧
    w6res = recalculateEntries (w6entries.set 1 (applyPatch (w6entries.getD 1 default) c6patch)) :=
  c6_amended_forward_recompute w6entries w6res "2025-01-02" c6patch 1
    (by decide) rfl (by decide) (by decide)

/-! ### Hard import failures are atomic (C3) -/

/-- Claim C3: whenever import fails hard — the document is not an object, its
entry list is over the 10000 cap, or a nonempty entry array yields zero
validated entries — the corresponding error is raised and every persisted slot
(entries, target, achievements, settings) is left untouched; in particular
restoring the 10001-entry `bigDoc` into `store3` fails with the
document-too-large error and the store still holds exactly its 3 entries. -/
theorem c3_hard_failures_leave_state_unchanged
    (maxMs : ℤ) (nowIso : String) (j : Json) (st : Store) :
    ((validateBackupData maxMs nowIso j).isValid = false →
       (runRestore maxMs nowIso j st).1 = st) ∧
    (j.isObjLike = false →
       validateBackupData maxMs nowIso j = ⟨false, [msgNotObject], none⟩) ∧
    (∀ es, j.getField keyEntries = some (.arr es) → 10000 < es.length →
       validateBackupData maxMs nowIso j = ⟨false, [msgTooMany], none⟩) ∧
    (∀ es, j.getField keyEntries = some (.arr es) → es.length ≤ 10000 → 0 < es.length →
       es.filterMap (validateWeightEntry maxMs) = [] →
       validateBackupData maxMs nowIso j = ⟨false, [msgNoValidEntries], none⟩) ∧
    runRestore maxD0 nowIso0 bigDoc store3 = (store3, [msgTooMany]) := by
  have hbig : validateBackupData maxD0 nowIso0 bigDoc = ⟨false, [msgTooMany], none⟩ := by
    have hes : bigDoc.getField keyEntries = some (.arr (List.replicate 10001 Json.null)) := rfl
    unfold validateBackupData
    rw [show bigDoc.isObjLike = true from rfl, hes]
    simp only [Bool.not_true, Bool.false_eq_true, if_false]
    rw [if_pos (by rw [List.length_replicate]; omega)]
  refine ⟨fun h => ?_, fun h => ?_, fun es hes hlen => ?_, fun es hes hlen hpos hfm => ?_, ?_⟩
  · unfold runRestore restoreBackup
    cases hd : (validateBackupData maxMs nowIso j).data with
    | none => simp [h, hd]
    | some data => simp [h, hd]
  · simp [validateBackupData, h]
  · have hobj : j.isObjLike = true := by
      cases j <;> simp_all [Json.getField, Json.isObjLike]
    unfold validateBackupData
    rw [hobj, hes]
    simp only [Bool.not_true, Bool.false_eq_true, if_false]
    rw [if_pos hlen]
  · have hobj : j.isObjLike = true := by
      cases j <;> simp_all [Json.getField, Json.isObjLike]
    unfold validateBackupData
    rw [hobj, hes]
    simp only [Bool.not_true, Bool.false_eq_true, if_false]
    rw [if_neg (by omega : ¬ 10000 < es.length)]
    simp only [hfm, List.length_nil]
    rw [if_pos (by simp [hpos])]
  · unfold runRestore restoreBackup
    rw [hbig]

/-- Witness for C3 at concrete inputs: the general unchanged-on-failure clause
applied to a non-object document, and the non-object and too-large clauses at
their concrete inputs. -/
theorem c3_witness :
    (runRestore maxD0 nowIso0 (Json.num 3) store3).1 = store3 ∧
    validateBackupData maxD0 nowIso0 (Json.num 3) = ⟨false, [msgNotObject], none⟩ ∧
    validateBackupData maxD0 nowIso0 bigDoc = ⟨false, [msgTooMany], none⟩ := by
  have h := c3_hard_failures_leave_state_unchanged maxD0 nowIso0 (Json.num 3) store3
  have h2 := c3_hard_failures_leave_state_unchanged maxD0 nowIso0 bigDoc store3
  exact ⟨h.1 (by decide), h.2.1 rfl,
         h2.2.2.1 (List.replicate 10001 Json.null) rfl (by rw [List.length_replicate]; omega)⟩

/-! ### Structural import failures (C5) -/

/-- Claim C5 counterexample: `c5doc` carries a numeric `version` — not a string
matching the semver pattern — yet the import does not fail: validation
succeeds (the bad version is only a warning) and the restore goes on to
replace the store's entries. -/
theorem c5_counterexample_bad_version_still_imports :
    (validateBackupData maxD0 nowIso0 c5doc).isValid = true ∧
    (validateBackupData maxD0 nowIso0 c5doc).errors = [msgBadVersion] ∧
    (runRestore maxD0 nowIso0 c5doc store3).1.entries = [c4okEntry] := by decide

/-- Claim C5 as amended: a document that is not an object, or whose `entries`
field is not an array, always fails fatally with the corresponding
malformed-document error; an invalid `version` (and likewise a missing
`exportDate`) is fatal only when no entry survives per-entry validation —
whenever at least one entry survives, `isValid` is true and the import
proceeds, the structural complaint surviving only as a warning. -/
theorem c5_amended_structural_failures
    (maxMs : ℤ) (nowIso : String) (j : Json) :
    (j.isObjLike = false → validateBackupData maxMs nowIso j = ⟨false, [msgNotObject], none⟩) ∧
    ((∀ es, j.getField keyEntries ≠ some (.arr es)) → j.isObjLike = true →
       validateBackupData maxMs nowIso j = ⟨false, [msgEntriesNotArray], none⟩) ∧
    (∀ es, j.getField keyEntries = some (.arr es) → es.length ≤ 10000 →
       versionErrs j ≠ [] →
       es.filterMap (validateWeightEntry maxMs) = [] →
       (validateBackupData maxMs nowIso j).isValid = false) ∧
    (∀ es, j.getField keyEntries = some (.arr es) → es.length ≤ 10000 →
       es.filterMap (validateWeightEntry maxMs) ≠ [] →
       (validateBackupData maxMs nowIso j).isValid = true) := by
  refine ⟨fun h => by simp [validateBackupData, h],
          fun hne hobj => ?_, fun es hes hlen hver hfm => ?_, fun es hes hlen hfm => ?_⟩
  · unfold validateBackupData
    rw [hobj]
    cases hg : j.getField keyEntries with
    | none => rfl
    | some v =>
      cases v with
      | arr es2 => exact absurd hg (hne es2)
      | null => rfl
      | bool b => rfl
      | num q => rfl
      | str s => rfl
      | obj fs => rfl
  · have hobj : j.isObjLike = true := by cases j <;> simp_all [Json.getField, Json.isObjLike]
    unfold validateBackupData
    rw [hobj, hes]
    simp only [Bool.not_true, Bool.false_eq_true, if_false]
    rw [if_neg (by omega : ¬ 10000 < es.length)]
    simp only [hfm, List.length_nil]
    by_cases hnil : es.length = 0
    · rw [if_neg (by simp [hnil])]
      simp [List.isEmpty_iff, List.append_eq_nil, hver]
    · rw [if_pos (by simpa using Nat.pos_of_ne_zero hnil)]
  · have hobj : j.isObjLike = true := by cases j <;> simp_all [Json.getField, Json.isObjLike]
    unfold validateBackupData
    rw [hobj, hes]
    simp only [Bool.not_true, Bool.false_eq_true, if_false]
    rw [if_neg (by omega : ¬ 10000 < es.length)]
    have hpos : 0 < (es.filterMap (validateWeightEntry maxMs)).length :=
      List.length_pos.mpr hfm
    have hbeq : ((es.filterMap (validateWeightEntry maxMs)).length == 0) = false :=
      beq_eq_false_iff_ne.mpr (Nat.pos_iff_ne_zero.mp hpos)
    rw [if_neg (by simp [hbeq])]
    simp [hpos]

/-- Witness for the amended C5: a numeric document is rejected as not an
object, and `c5doc` (bad version, one valid entry) passes validation. -/
theorem c5_witness :
    validateBackupData maxD0 nowIso0 (Json.num 3) = ⟨false, [msgNotObject], none⟩ ∧
    (validateBackupData maxD0 nowIso0 c5doc).isValid = true := by
  have h1 := c5_amended_structural_failures maxD0 nowIso0 (Json.num 3)
  have h2 := c5_amended_structural_failures maxD0 nowIso0 c5doc
  exact ⟨h1.1 rfl, h2.2.2.2 [entryToJson c4okEntry] rfl (by decide) (by decide)⟩

/-! ### Per-entry import validation (C7) -/

/-- Claim C7 counterexample: an entry dated `2025-02-30` — a regex-shaped
string denoting no calendar date, hence certainly not a date within
`[2000-01-01, today + 1 year]` — is retained by the import validator rather
than dropped: `new Date('2025-02-30')` is Invalid Date and both `NaN` range
comparisons are false. -/
theorem c7_counterexample_invalid_calendar_date_retained :
    (validateWeightEntry maxD0 c7badDate).isSome = true ∧
    isoShape "2025-02-30" = true ∧
    parseIsoDays "2025-02-30" = none := by decide

theorem validateWeightEntry_isNone_eq_dropSpec (maxMs : ℤ) (j : Json) :
    (validateWeightEntry maxMs j).isNone = dropSpec maxMs j := by
  unfold validateWeightEntry dropSpec dateRangePass
  cases hobj : j.isObjLike with
  | false => simp [hobj]
  | true =>
    simp only [hobj, Bool.not_true, Bool.false_eq_true, if_false, Bool.true_and]
    cases hd : strField j keyDate with
    | none => simp
    | some ds =>
      simp only
      cases hshape : isoShape ds with
      | false => simp [hshape]
      | true =>
        simp only [hshape, Bool.not_true, Bool.false_eq_true, if_false, Bool.true_and]
        cases hw : numField j keyWeight with
        | none => simp
        | some w =>
          simp only
          by_cases hrange : w < 20 ∨ w > 500
          · rw [if_pos hrange]
            have hwt : (decide (20 ≤ w) && decide (w ≤ 500)) = false := by
              rcases hrange with h | h
              · simp [not_le.mpr h]
              · simp [not_le.mpr h]
            simp [hwt]
          · rw [if_neg hrange]
            push_neg at hrange
            have hwt : (decide (20 ≤ w) && decide (w ≤ 500)) = true := by
              simp [hrange.1, hrange.2]
            simp only [hwt, Bool.and_true]
            cases hp : parseIsoDays ds with
            | none => simp
            | some t =>
              cases hAB : (decide (t * 86400000 < minMs) || decide (t * 86400000 > maxMs)) <;>
                simp [hAB]

theorem entryErrors_eq_dropWarnings_from (maxMs : ℤ) :
    ∀ (es : List Json) (n : Nat),
      entryErrors maxMs es n =
        ((es.enumFrom n).filter (fun p => dropSpec maxMs p.2)).map (fun p => invalidEntryMsg p.1)
  | [], _ => rfl
  | e :: rest, n => by
    have hiff := validateWeightEntry_isNone_eq_dropSpec maxMs e
    rw [List.enumFrom_cons]
    unfold entryErrors
    cases hv : validateWeightEntry maxMs e with
    | some x =>
      rw [hv] at hiff
      simp only [Option.isNone_some] at hiff
      simp [List.filter_cons, ← hiff, entryErrors_eq_dropWarnings_from maxMs rest (n + 1)]
    | none =>
      rw [hv] at hiff
      simp only [Option.isNone_none] at hiff
      simp [List.filter_cons, ← hiff, entryErrors_eq_dropWarnings_from maxMs rest (n + 1)]

theorem filterMap_length_eq_kept_length (maxMs : ℤ) :
    ∀ es : List Json,
      (es.filterMap (validateWeightEntry maxMs)).length =
        (es.filter (fun j2 => !(dropSpec maxMs j2))).length
  | [] => rfl
  | e :: rest => by
    have hiff := validateWeightEntry_isNone_eq_dropSpec maxMs e
    cases hv : validateWeightEntry maxMs e with
    | some x =>
      rw [hv] at hiff
      simp only [Option.isNone_some] at hiff
      simp [List.filterMap_cons, List.filter_cons, hv, ← hiff,
            filterMap_length_eq_kept_length maxMs rest]
    | none =>
      rw [hv] at hiff
      simp only [Option.isNone_none] at hiff
      simp [List.filterMap_cons, List.filter_cons, hv, ← hiff,
            filterMap_length_eq_kept_length maxMs rest]

/-- Claim C7 as amended: an element of the entries array is dropped — with a
non-fatal warning naming its index — iff `dropSpec` holds of it: its date is
not a string matching `YYYY-MM-DD`, or parses to a valid calendar date outside
`[2000-01-01, maxDate]`, or its weight is not a number in `[20, 500]`; all
other elements are retained (the warnings are exactly the dropped indices in
order, and the retained count is the non-dropped count).  Unlike the original
claim, a regex-shaped but calendar-invalid date (such as `2025-02-30`) is
retained, since the Invalid-Date range comparisons are both false.  The
5-entry document with weight 9999 at index 2 imports as 4 entries with exactly
one warning naming index 2. -/
theorem c7_amended_drop_iff_and_warnings (maxMs : ℤ) (es : List Json) :
    (∀ j2 : Json, (validateWeightEntry maxMs j2).isNone = dropSpec maxMs j2) ∧
    entryErrors maxMs es 0 = dropWarnings maxMs es ∧
    (es.filterMap (validateWeightEntry maxMs)).length =
      (es.filter (fun j2 => !(dropSpec maxMs j2))).length ∧
    ((validateBackupData maxD0 nowIso0 c7doc).data.map (fun d => d.entries.length) = some 4 ∧
     (validateBackupData maxD0 nowIso0 c7doc).errors = [invalidEntryMsg 2]) := by
  exact ⟨validateWeightEntry_isNone_eq_dropSpec maxMs,
         entryErrors_eq_dropWarnings_from maxMs es 0,
         filterMap_length_eq_kept_length maxMs es,
         by decide⟩

/-! ### Export/import round trip (C4) -/

theorem jsRound_intCast (n : ℤ) : jsRound ((n : ℚ)) = n := by
  unfold jsRound
  rw [add_comm, Int.floor_add_int]
  norm_num

theorem round2_eq_self {q : ℚ} (h : twoDec q) : round2 q = q := by
  obtain ⟨n, rfl⟩ := h
  unfold round2
  rw [div_mul_cancel₀ _ (by norm_num : (100 : ℚ) ≠ 0), jsRound_intCast]

theorem round1_eq_self {q : ℚ} (h : oneDec q) : round1 q = q := by
  obtain ⟨n, rfl⟩ := h
  unfold round1
  rw [div_mul_cancel₀ _ (by norm_num : (10 : ℚ) ≠ 0), jsRound_intCast]

theorem maxRound_eq_self {q : ℚ} (h : ∃ n : ℕ, q = (n : ℚ)) :
    ((max 0 (jsRound q) : ℤ) : ℚ) = q := by
  obtain ⟨n, rfl⟩ := h
  rw [show ((n : ℚ)) = (((n : ℤ) : ℤ) : ℚ) by push_cast; ring, jsRound_intCast,
      max_eq_right (by positivity : (0 : ℤ) ≤ ((n : ℤ) : ℤ))]

theorem entryJson_date (e : WeightEntry) : strField (entryToJson e) keyDate = some e.date := rfl

theorem entryJson_weekDay (e : WeightEntry) :
    (entryToJson e).getField keyWeekDay = some (.str e.weekDay) := rfl

theorem entryJson_weight (e : WeightEntry) :
    numField (entryToJson e) keyWeight = some e.weight := rfl

theorem entryJson_changePercent (e : WeightEntry) :
    numField (entryToJson e) keyChangePercent = some e.changePercent := rfl

theorem entryJson_changeKg (e : WeightEntry) :
    numField (entryToJson e) keyChangeKg = some e.changeKg := rfl

theorem entryJson_dailyChange (e : WeightEntry) :
    numField (entryToJson e) keyDailyChange = some e.dailyChange := rfl

/-- A ready entry is a fixed point of the import validator. -/
theorem validate_entryToJson (maxMs : ℤ) (e : WeightEntry) (h : entryReady maxMs e) :
    validateWeightEntry maxMs (entryToJson e) = some e := by
  obtain ⟨h1, h2, h3, h4, h5, h6, h7, h8, h9, h10⟩ := h
  unfold validateWeightEntry roundedNumOr0
  simp only [show (entryToJson e).isObjLike = true from rfl, Bool.not_true,
             Bool.false_eq_true, if_false, entryJson_date, entryJson_weight,
             entryJson_weekDay, entryJson_changePercent, entryJson_changeKg,
             entryJson_dailyChange, h1, h2, Option.getD_some]
  rw [if_neg (by push_neg; exact ⟨h3, h4⟩)]
  simp only [sanitizeString, h9, round2_eq_self h5, round2_eq_self h6,
             round2_eq_self h7, round2_eq_self h8, Option.some.injEq]
  rw [if_neg (by simpa using h10)]

theorem filterMap_validate_map (maxMs : ℤ) :
    ∀ (entries : List WeightEntry), (∀ e ∈ entries, entryReady maxMs e) →
      (entries.map entryToJson).filterMap (validateWeightEntry maxMs) = entries
  | [], _ => rfl
  | e :: rest, h => by
    rw [List.map_cons, List.filterMap_cons, validate_entryToJson maxMs e (h e (by simp))]
    simp only
    rw [filterMap_validate_map maxMs rest (fun x hx => h x (by simp [hx]))]

theorem entryErrors_nil_of_ready (maxMs : ℤ) :
    ∀ (entries : List WeightEntry) (n : Nat), (∀ e ∈ entries, entryReady maxMs e) →
      entryErrors maxMs (entries.map entryToJson) n = []
  | [], _, _ => rfl
  | e :: rest, n, h => by
    rw [List.map_cons]
    unfold entryErrors
    rw [validate_entryToJson maxMs e (h e (by simp))]
    simp only
    exact entryErrors_nil_of_ready maxMs rest (n + 1) (fun x hx => h x (by simp [hx]))

theorem targetJson_startDate (t : TargetData) :
    strField (targetToJson t) keyStartDate = some t.startDate := rfl

theorem targetJson_endDate (t : TargetData) :
    strField (targetToJson t) keyEndDate = some t.endDate := rfl

theorem targetJson_startWeight (t : TargetData) :
    numField (targetToJson t) keyStartWeight = some t.startWeight := rfl

theorem targetJson_endWeight (t : TargetData) :
    numField (targetToJson t) keyEndWeight = some t.endWeight := rfl

theorem targetJson_totalDuration (t : TargetData) :
    numField (targetToJson t) keyTotalDuration = some t.totalDuration := rfl

theorem targetJson_totalKg (t : TargetData) :
    numField (targetToJson t) keyTotalKg = some t.totalKg := rfl

theorem targetJson_height (t : TargetData) :
    numField (targetToJson t) keyHeight = some t.height := rfl

/-- A ready target is a fixed point of the import validator. -/
theorem validate_targetToJson (t : TargetData) (h : targetReady t) :
    validateTargetData (targetToJson t) = some t := by
  obtain ⟨h1, h2, h3, h4, h5, h6, h7, h8, h9, h10, h11, h12, h13⟩ := h
  unfold validateTargetData
  simp only [show (targetToJson t).isObjLike = true from rfl, Bool.not_true,
             Bool.false_eq_true, if_false, targetJson_startDate, targetJson_endDate,
             targetJson_startWeight, targetJson_endWeight, targetJson_height,
             targetJson_totalDuration, targetJson_totalKg, h1, h2, Bool.not_false,
             Bool.false_or, Bool.or_self]
  rw [if_neg (by push_neg; exact ⟨h3, h4⟩), if_neg (by push_neg; exact ⟨h6, h7⟩),
      if_neg (by push_neg; exact ⟨h9, h10⟩)]
  simp only [round2_eq_self h5, round2_eq_self h8, round1_eq_self h11,
             maxRound_eq_self h12, round2_eq_self h13]

theorem settingsToJson_theme (s : BackupSettings) :
    (settingsToJson s).getField keyTheme = s.theme.map Json.str := by
  obtain ⟨th, tv, rm⟩ := s
  cases th <;> cases tv <;> cases rm <;> rfl

theorem settingsToJson_timelineView (s : BackupSettings) :
    (settingsToJson s).getField keyTimelineView = s.timelineView.map Json.str := by
  obtain ⟨th, tv, rm⟩ := s
  cases th <;> cases tv <;> cases rm <;> rfl

theorem settingsToJson_reminder (s : BackupSettings) :
    (settingsToJson s).getField keyReminder = s.reminder.map Json.str := by
  obtain ⟨th, tv, rm⟩ := s
  cases th <;> cases tv <;> cases rm <;> rfl

/-- Ready settings are a fixed point of the settings-validation block. -/
theorem parseSettings_createBackup (ed : String) (entries : List WeightEntry)
    (td : Option TargetData) (ach : List Achievement) (s : BackupSettings)
    (h : settingsReady s) : parseSettings (createBackup ed entries td ach s) = s := by
  obtain ⟨hthm, htv, hrm⟩ := h
  unfold parseSettings
  rw [show (createBackup ed entries td ach s).getField keySettings =
        some (settingsToJson s) from rfl]
  simp only [show (settingsToJson s).isObjLike = true from rfl, Bool.not_true,
             Bool.false_eq_true, if_false, settingsToJson_theme,
             settingsToJson_timelineView, settingsToJson_reminder]
  obtain ⟨th, tv, rm⟩ := s
  simp only [BackupSettings.mk.injEq]
  refine ⟨?_, ?_, ?_⟩
  · cases th with
    | none => rfl
    | some t =>
      simp only [Option.map_some']
      rw [if_pos (hthm t rfl)]
  · cases tv with
    | none => rfl
    | some t =>
      simp only [Option.map_some']
      rw [if_pos (htv t rfl)]
  · cases rm with
    | none => rfl
    | some r =>
      simp only [Option.map_some', (hrm r rfl).1]

/-- Claim C4 counterexample: the store state `c4entries` is derived-consistent
(a genuinely reachable, valid state: its second entry carries the exact
computed `dailyChange = -2/7`), yet deserializing its own export does not
reproduce it — the import validator rounds `dailyChange` to two decimals,
`-29/100`. -/
theorem c4_counterexample_rounding_breaks_roundtrip :
    recalculateEntries c4entries = c4entries ∧
    (validateBackupData maxD0 nowIso0 c4doc).data.map (fun d => d.entries) ≠ some c4entries ∧
    (validateBackupData maxD0 nowIso0 c4doc).data.map (fun d => d.entries) =
      some [⟨"2025-01-01", "Wednesday", 100, 0, 0, 0⟩,
            ⟨"2025-01-08", "Wednesday", 98, -2, -2, -29/100⟩] := by decide

/-- Claim C4 as amended: for a store state of at most 10000 entries whose
entries, target and settings are already in the validator's normal form
(dates of the accepted shape and range, weights in `[20, 500]`, numeric fields
with at most two decimals, nonempty sanitization-invariant `weekDay`,
recognized settings values), deserializing the exported document reproduces
the entries, the target and the recognized settings keys exactly, with no
warnings.  In general the round trip is not the identity: the validator
rounds every numeric field to two decimals (one for `height`). -/
theorem c4_amended_roundtrip
    (maxMs : ℤ) (nowIso exportDate : String) (entries : List WeightEntry)
    (target : Option TargetData) (settings : BackupSettings)
    (hlen : entries.length ≤ 10000)
    (hE : ∀ e ∈ entries, entryReady maxMs e)
    (hT : ∀ t, target = some t → targetReady t)
    (hS : settingsReady settings) :
    validateBackupData maxMs nowIso (createBackup exportDate entries target [] settings) =
      ⟨true, [], some ⟨ver100, exportDate, entries, target, [], settings⟩⟩ := by
  unfold validateBackupData
  rw [show (createBackup exportDate entries target [] settings).isObjLike = true from rfl,
      show (createBackup exportDate entries target [] settings).getField keyEntries =
        some (.arr (entries.map entryToJson)) from rfl]
  simp only [Bool.not_true, Bool.false_eq_true, if_false]
  rw [if_neg (by rw [List.length_map]; omega)]
  rw [filterMap_validate_map maxMs entries hE]
  have hguard : (entries.length == 0 && decide ((entries.map entryToJson).length > 0)) = false := by
    rw [List.length_map]
    cases entries <;> rfl
  simp only [hguard, Bool.false_eq_true, if_false]
  have hver : versionErrs (createBackup exportDate entries target [] settings) = [] := rfl
  have hexp : exportDateErrs (createBackup exportDate entries target [] settings) = [] := rfl
  have hent := entryErrors_nil_of_ready maxMs entries 0 hE
  have htp : targetParse (createBackup exportDate entries target [] settings) = (target, []) := by
    cases target with
    | none => rfl
    | some t =>
      have hv := validate_targetToJson t (hT t rfl)
      calc targetParse (createBackup exportDate entries (some t) [] settings)
          = (match validateTargetData (targetToJson t) with
             | some td => (some td, [])
             | none => (none, [msgBadTarget])) := rfl
        _ = (some t, []) := by rw [hv]
  have hach : parseAchievements (createBackup exportDate entries target [] settings) = [] := rfl
  have hset := parseSettings_createBackup exportDate entries target [] settings hS
  rw [hver, hexp, hent, htp, hach, hset]
  rfl

theorem c4okEntryReady : entryReady maxD0 c4okEntry :=
  ⟨by decide, by decide, by decide, by decide, ⟨10000, by decide⟩,
   ⟨0, by decide⟩, ⟨0, by decide⟩, ⟨0, by decide⟩, by decide, by decide⟩

theorem c4okTargetReady : targetReady c4okTarget :=
  ⟨by decide, by decide, by decide, by decide, ⟨10000, by decide⟩,
   by decide, by decide, ⟨8000, by decide⟩, by decide, by decide, ⟨1700, by decide⟩,
   ⟨180, by decide⟩, ⟨2000, by decide⟩⟩

theorem c4okSettingsReady : settingsReady c4okSettings :=
  ⟨fun t ht => by cases Option.some.inj ht; decide,
   fun t ht => by cases Option.some.inj ht; decide,
   fun r hr => by cases Option.some.inj hr; exact ⟨by decide, by decide⟩⟩

/-- Witness for the amended C4: the concrete clean state round-trips to
itself. -/
theorem c4_witness :
    validateBackupData maxD0 nowIso0
        (createBackup nowIso0 [c4okEntry] (some c4okTarget) [] c4okSettings) =
      ⟨true, [], some ⟨ver100, nowIso0, [c4okEntry], some c4okTarget, [], c4okSettings⟩⟩ :=
  c4_amended_roundtrip maxD0 nowIso0 nowIso0 [c4okEntry] (some c4okTarget) c4okSettings
    (by decide) (fun e he => by rw [List.mem_singleton.mp he]; exact c4okEntryReady)
    (fun t ht => by rw [← Option.some.inj ht]; exact c4okTargetReady)
    c4okSettingsReady

end Weightwatch
